import Mathlib

/-!
Shallow embedding of `src/monitor.py` (JAL JFK–HND award-space monitor).

Python strings are modelled as Lean `String`s over their character lists;
Python `None`-able values are `Option`s; Python truthiness is made explicit
(`pyTruthyStr`, `pyOrNat`).  The network layer is abstracted as a function
from the request that `check_flights` builds to the optional parsed `data`
array of the response (`none` models a request that raised and was skipped).
-/

namespace Monitor

/-- ASCII uppercasing of one character, modelling Python `str.upper` on the
character range this program manipulates. -/
def upChar (c : Char) : Char :=
  if 97 ≤ c.toNat ∧ c.toNat ≤ 122 then Char.ofNat (c.toNat - 32) else c

/-- `str.upper` over the character list. -/
def upperL (l : List Char) : List Char := l.map upChar

/-- `str.replace(" ", "")`: removal of every space character (U+0020 only). -/
def stripSpaces (l : List Char) : List Char := l.filter (fun c => decide (c ≠ ' '))

/-- An ASCII decimal digit. -/
def isDigitChar (c : Char) : Bool := decide (48 ≤ c.toNat) && decide (c.toNat ≤ 57)

/-- `str.isdigit`: nonempty and consisting of digits only. -/
def isDigitsL (l : List Char) : Bool := !l.isEmpty && l.all isDigitChar

/-- `str.startswith` over character lists. -/
def startsWithL : List Char → List Char → Bool
  | [], _ => true
  | _ :: _, [] => false
  | a :: as, b :: bs => (a == b) && startsWithL as bs

/-- Python's `in` on strings (substring containment), over character lists. -/
def containsSeq (needle : List Char) : List Char → Bool
  | [] => needle.isEmpty
  | c :: t => startsWithL needle (c :: t) || containsSeq needle t

/-- Numeric value of a digit character. -/
def digitVal (c : Char) : Nat := c.toNat - 48

/-- `int(...)` on a digit string. -/
def natOfDigits (l : List Char) : Nat := l.foldl (fun a c => 10 * a + digitVal c) 0

/-- The digit character for `n < 10`. -/
def digitChar (n : Nat) : Char := Char.ofNat (48 + n)

/-- Fuelled digit expansion (structural recursion, so the kernel can
evaluate it). -/
def natDigitsAux : Nat → Nat → List Char
  | 0, _ => []
  | fuel + 1, n => if n < 10 then [digitChar n] else natDigitsAux fuel (n / 10) ++ [digitChar (n % 10)]

/-- Decimal digits of `n`, most significant first, no leading zeros
(`str(int(...))`). -/
def natDigits (n : Nat) : List Char := natDigitsAux (n + 1) n

/-- Decimal rendering of a natural number. -/
def natRepr (n : Nat) : String := String.mk (natDigits n)

/-- The branch structure of `normalize_flight_num` after the
`replace(" ", "").upper()` preprocessing (monitor.py lines 39–49). -/
def normCore (cs : List Char) : String :=
  if isDigitsL cs then String.mk ('J' :: 'L' :: natDigits (natOfDigits cs))
  else if startsWithL ['J', 'L'] cs then
    (if isDigitsL (cs.drop 2) then
      String.mk ('J' :: 'L' :: natDigits (natOfDigits (cs.drop 2)))
    else String.mk cs)
  else String.mk cs

/-- `normalize_flight_num` (monitor.py lines 31–49).  The Python argument can
be `None` or a string; `if not code` catches both `None` and `""`. -/
def normalize_flight_num (code : Option String) : String :=
  match code with
  | none => ""
  | some s =>
    if s = "" then ""
    else normCore (upperL (stripSpaces s.toList))

/-- `TARGET_FLIGHTS` (monitor.py lines 26–29). -/
def TARGET_FLIGHTS : List String := ["JL3", "JL4", "JL5", "JL6"]

/-- `ROUTES` (monitor.py lines 20–23). -/
def ROUTES : List (String × String) := [("JFK", "HND"), ("HND", "JFK")]

/-- `sources` (monitor.py line 61). -/
def sources : List String := ["american", "alaska"]

/-- The `Route` sub-object of an API result record. -/
structure Route where
  OriginAirport : String
  DestinationAirport : String
  deriving DecidableEq

/-- One record of the `data` array returned by the search API, restricted to
the fields `monitor.py` reads; the two fields whose values the program itself
attaches (monitor.py lines 100–101) start out `none`. -/
structure Flight where
  OperatingAirlineCode : Option String
  JAvailable : Bool
  FAvailable : Bool
  FlightNumber : Option String
  JMileage : Option Nat
  FMileage : Option Nat
  Date : String
  Route : Route
  SourceProgram : Option String
  NormalizedFlightNum : Option String
  deriving DecidableEq

/-- Python truthiness of an optional string (`None` and `""` are falsy). -/
def pyTruthyStr : Option String → Bool
  | none => false
  | some s => decide (s ≠ "")

/-- Python `x or y` on optional numbers: `None` and `0` are falsy. -/
def pyOrNat : Option Nat → Option Nat → Option Nat
  | some n, b => if n = 0 then b else some n
  | none, b => b

/-- One GET request that `check_flights` issues (monitor.py lines 67–76). -/
structure Request where
  origin_airport : String
  destination_airport : String
  start_date : String
  end_date : String
  source : String
  deriving DecidableEq

/-- The body of the inner result loop (monitor.py lines 83–102): `some`
of the enriched record when the flight passes all three filters. -/
def matchFlight (source : String) (flight : Flight) : Option Flight :=
  if containsSeq ['J', 'L'] (flight.OperatingAirlineCode.getD "").toList then
    if flight.JAvailable || flight.FAvailable then
      if normalize_flight_num flight.FlightNumber ∈ TARGET_FLIGHTS then
        some { flight with SourceProgram := some source,
                           NormalizedFlightNum := some (normalize_flight_num flight.FlightNumber) }
      else none
    else none
  else none

/-- The matches that one response's `data` array contributes, in order. -/
def processData (source : String) (data : List Flight) : List Flight :=
  data.filterMap (matchFlight source)

/-- One request/response round: a failed request (monitor.py lines 79–81)
is logged and contributes nothing. -/
def handleReq (fetch : Request → Option (List Flight)) (r : Request) : List Flight :=
  match fetch r with
  | none => []
  | some data => processData r.source data

/-- The requests `check_flights` builds, in loop order (routes outer,
sources inner). -/
def allRequests (start_date end_date : String) : List Request :=
  ROUTES.flatMap fun rt => sources.map fun s =>
    { origin_airport := rt.1, destination_airport := rt.2,
      start_date := start_date, end_date := end_date, source := s }

/-- `check_flights` (monitor.py lines 51–107), returning both the list of
requests issued and the accumulated `found_flights`. -/
def check_flights (api_key : Option String) (start_date end_date : String)
    (fetch : Request → Option (List Flight)) : List Request × List Flight :=
  if pyTruthyStr api_key = false then ([], [])
  else
    let reqs := allRequests start_date end_date
    (reqs, reqs.foldl (fun acc r => acc ++ handleReq fetch r) [])

/-- Python's `<=` on strings: lexicographic comparison by code point. -/
def listLeB : List Char → List Char → Bool
  | [], _ => true
  | _ :: _, [] => false
  | c :: cs, d :: ds =>
    if c.toNat < d.toNat then true
    else if d.toNat < c.toNat then false
    else listLeB cs ds

/-- Python's `<=` on strings, over `String`. -/
def strLeB (a b : String) : Bool := listLeB a.toList b.toList

/-- Stable insertion used to model Python's stable `list.sort`:
the inserted element stops in front of the first element whose key is
not smaller. -/
def insertSorted (f : Flight) : List Flight → List Flight
  | [] => [f]
  | g :: gs => if strLeB f.Date g.Date then f :: g :: gs else g :: insertSorted f gs

/-- The effect of `flights.sort(key=lambda x: x['Date'])` (monitor.py
line 122): the stable ascending sort by the `Date` string. -/
def sortByDate : List Flight → List Flight
  | [] => []
  | f :: fs => insertSorted f (sortByDate fs)

/-- One Discord embed (monitor.py lines 144–154); the three `fields`
entries are kept as named components. -/
structure Embed where
  title : String
  description : String
  url : String
  color : Nat
  fieldDate : String
  fieldCost : String
  fieldFlight : String
  deriving DecidableEq

/-- The webhook payload (monitor.py lines 157–160). -/
structure Payload where
  content : String
  embeds : List Embed
  deriving DecidableEq

/-- Python f-string interpolation of a possibly-`None` value. -/
def showOptS : Option String → String
  | none => "None"
  | some s => s

/-- Comma grouping of a reversed digit list (least significant first). -/
def fmtGroups : List Char → List Char
  | [] => []
  | [a] => [a]
  | [a, b] => [a, b]
  | [a, b, c] => [a, b, c]
  | a :: b :: c :: d :: rest => a :: b :: c :: ',' :: fmtGroups (d :: rest)

/-- Python's format spec `{:,}` on a natural number: decimal digits with
thousands separators. -/
def fmtThousands (n : Nat) : String :=
  String.mk ((fmtGroups (natDigits n).reverse).reverse)

/-- `cost` / `cost_str` (monitor.py lines 138–139): `J or F`, then the
formatted value when truthy, else `"?"`. -/
def cost_str (f : Flight) : String :=
  match pyOrNat f.JMileage f.FMileage with
  | none => "?"
  | some n => if n = 0 then "?" else fmtThousands n ++ " pts"

/-- The cost-selection rule as the amended spec words it: the business-class
mileage when present and nonzero, else the first-class mileage when present
and nonzero, else nothing.  Written from the spec's words, independently of
`cost_str`, as the target of the refinement comparison. -/
def specCostChoice (j f : Option Nat) : Option Nat :=
  match j with
  | some n =>
    if n ≠ 0 then some n
    else match f with
      | some m => if m ≠ 0 then some m else none
      | none => none
  | none =>
    match f with
    | some m => if m ≠ 0 then some m else none
    | none => none

/-- `cabin_str` (monitor.py lines 132–135). -/
def cabin_str (f : Flight) : String :=
  String.intercalate " + "
    ((if f.FAvailable then ["FIRST"] else []) ++ (if f.JAvailable then ["BIZ"] else []))

/-- The seats.aero deep link (monitor.py lines 141 and 182). -/
def deepLink (src : Option String) (origin dest date : String) : String :=
  "https://seats.aero/" ++ showOptS src ++ "/" ++ origin ++ "/" ++ dest ++ "/" ++ date

/-- One embed of the notification (monitor.py lines 124–155). -/
def mkEmbed (f : Flight) : Embed :=
  { title := "🇯🇵 " ++ f.NormalizedFlightNum.getD "JL??" ++ " " ++ cabin_str f ++ " Found!"
    description := "**" ++ f.Route.OriginAirport ++ " ⇄ " ++ f.Route.DestinationAirport ++ "**"
    url := deepLink f.SourceProgram f.Route.OriginAirport f.Route.DestinationAirport f.Date
    color := if f.SourceProgram = some "american" then 0xC8102E else 0x004165
    fieldDate := f.Date
    fieldCost := cost_str f
    fieldFlight := f.NormalizedFlightNum.getD "JL??" }

/-- The fixed `content` banner of the payload (monitor.py line 158). -/
def discordContent : String := "🚨 **JFK-HND A35K Space Detected** 🚨"

/-- `notify` (monitor.py lines 109–165): returns the final state of the
caller's (mutable) `flights` list together with the payload POSTed to the
webhook, `none` when no POST is attempted.  The in-place sort happens only
after both early returns. -/
def notify (webhook_url : Option String) (flights : List Flight) :
    List Flight × Option Payload :=
  if flights.isEmpty then (flights, none)
  else if pyTruthyStr webhook_url = false then (flights, none)
  else
    let sorted := sortByDate flights
    (sorted, some { content := discordContent, embeds := (sorted.take 10).map mkEmbed })

/-- The payload `notify` builds on the success path, as a function of the
match list. -/
def mkPayload (flights : List Flight) : Payload :=
  { content := discordContent, embeds := ((sortByDate flights).take 10).map mkEmbed }

/-- The wall-clock time `datetime.datetime.now()` is modelled by its
calendar components. -/
structure PyTime where
  year : Nat
  month : Nat
  day : Nat
  hour : Nat
  minute : Nat
  second : Nat
  deriving DecidableEq

/-- Zero padding to two digits (`%m`, `%d`, `%H`, `%M`, `%S`). -/
def pad2 (n : Nat) : String := if n < 10 then "0" ++ natRepr n else natRepr n

/-- Zero padding to four digits (`%Y`). -/
def pad4 (n : Nat) : String :=
  if n < 10 then "000" ++ natRepr n
  else if n < 100 then "00" ++ natRepr n
  else if n < 1000 then "0" ++ natRepr n
  else natRepr n

/-- `strftime("%Y-%m-%d %H:%M:%S UTC")` (monitor.py line 170). -/
def timestampStr (t : PyTime) : String :=
  pad4 t.year ++ "-" ++ pad2 t.month ++ "-" ++ pad2 t.day ++ " " ++
    pad2 t.hour ++ ":" ++ pad2 t.minute ++ ":" ++ pad2 t.second ++ " UTC"

/-- One record of the snapshot's `flights` array (monitor.py lines 175–183). -/
structure SnapshotRecord where
  date : String
  route : String
  flight : String
  cabin : String
  source : Option String
  cost : Option Nat
  link : String
  deriving DecidableEq

/-- The document written to `results.json` (monitor.py lines 169–187). -/
structure Snapshot where
  last_updated : String
  flights : List SnapshotRecord
  deriving DecidableEq

/-- The projection of one match into its snapshot record. -/
def mkSnapshotRecord (f : Flight) : SnapshotRecord :=
  { date := f.Date
    route := f.Route.OriginAirport ++ " -> " ++ f.Route.DestinationAirport
    flight := f.NormalizedFlightNum.getD "N/A"
    cabin := if f.FAvailable then "First" else "Business"
    source := f.SourceProgram
    cost := pyOrNat f.JMileage f.FMileage
    link := deepLink f.SourceProgram f.Route.OriginAirport f.Route.DestinationAirport f.Date }

/-- `save_to_json` (monitor.py lines 167–188): the document it serializes,
with the wall-clock time passed in explicitly. -/
def save_to_json (now : PyTime) (flights : List Flight) : Snapshot :=
  { last_updated := timestampStr now, flights := flights.map mkSnapshotRecord }

/-- A sample matched record, as `check_flights` would emit it, with a given
travel date. -/
def exFlight (d : String) : Flight :=
  { OperatingAirlineCode := some "JL"
    JAvailable := true
    FAvailable := false
    FlightNumber := some "JL006"
    JMileage := some 85000
    FMileage := none
    Date := d
    Route := { OriginAirport := "JFK", DestinationAirport := "HND" }
    SourceProgram := some "american"
    NormalizedFlightNum := some "JL6" }

/-- A raw API record that passes every filter. -/
def goodRaw : Flight :=
  { OperatingAirlineCode := some "JL"
    JAvailable := true
    FAvailable := false
    FlightNumber := some "JL006"
    JMileage := some 85000
    FMileage := none
    Date := "2025-01-15"
    Route := { OriginAirport := "JFK", DestinationAirport := "HND" }
    SourceProgram := none
    NormalizedFlightNum := none }

/-- The stubbed network: every request answers with the single good record. -/
def fetchGood : Request → Option (List Flight) := fun _ => some [goodRaw]

/-- `goodRaw` as enriched by the scan of the `american` source. -/
def goodMatched : Flight :=
  { goodRaw with SourceProgram := some "american", NormalizedFlightNum := some "JL6" }

/-- A record whose business-class cost is an explicit `0` while a first-class
cost is present — the probe for the cost-selection rule. -/
def zeroCostFlight : Flight :=
  { OperatingAirlineCode := some "JL"
    JAvailable := true
    FAvailable := true
    FlightNumber := some "JL4"
    JMileage := some 0
    FMileage := some 50000
    Date := "2025-02-01"
    Route := { OriginAirport := "HND", DestinationAirport := "JFK" }
    SourceProgram := some "alaska"
    NormalizedFlightNum := some "JL4" }

/-- Twelve identical matches, for the cap-at-ten probe. -/
def twelveFlights : List Flight := List.replicate 12 (exFlight "2025-01-15")

/-- A fixed wall-clock instant for concrete snapshot probes. -/
def exTime : PyTime :=
  { year := 2025, month := 1, day := 2, hour := 3, minute := 4, second := 5 }

/-! ### Character-level lemmas -/

theorem char_toNat_ofNat_valid (n : Nat) (h : n < 55296) : (Char.ofNat n).toNat = n := by
  have hv : n.isValidChar := Or.inl h
  rw [Char.ofNat, dif_pos hv]
  rfl

theorem upChar_toNat_lower {c : Char} (h1 : 97 ≤ c.toNat) (h2 : c.toNat ≤ 122) :
    (upChar c).toNat = c.toNat - 32 := by
  rw [upChar, if_pos ⟨h1, h2⟩]
  exact char_toNat_ofNat_valid _ (by omega)

theorem upChar_eq_of_not_lower {c : Char} (h : ¬(97 ≤ c.toNat ∧ c.toNat ≤ 122)) :
    upChar c = c := by
  rw [upChar, if_neg h]

theorem upChar_idem (c : Char) : upChar (upChar c) = upChar c := by
  by_cases h : 97 ≤ c.toNat ∧ c.toNat ≤ 122
  · have ht : (upChar c).toNat = c.toNat - 32 := upChar_toNat_lower h.1 h.2
    apply upChar_eq_of_not_lower
    rw [ht]
    omega
  · rw [upChar_eq_of_not_lower h]
    exact upChar_eq_of_not_lower h

theorem space_toNat : (' ' : Char).toNat = 32 := rfl

theorem upChar_ne_space {c : Char} (h : c ≠ ' ') : upChar c ≠ ' ' := by
  by_cases hl : 97 ≤ c.toNat ∧ c.toNat ≤ 122
  · intro he
    have hn := congrArg Char.toNat he
    rw [upChar_toNat_lower hl.1 hl.2, space_toNat] at hn
    omega
  · rw [upChar_eq_of_not_lower hl]
    exact h

theorem isDigitChar_iff {c : Char} : isDigitChar c = true ↔ 48 ≤ c.toNat ∧ c.toNat ≤ 57 := by
  simp [isDigitChar]

theorem upChar_eq_self_of_digit {c : Char} (h : isDigitChar c = true) : upChar c = c := by
  have hd := isDigitChar_iff.mp h
  exact upChar_eq_of_not_lower (by omega)

theorem digit_ne_space {c : Char} (h : isDigitChar c = true) : c ≠ ' ' := by
  have hd := isDigitChar_iff.mp h
  intro he
  rw [he, space_toNat] at hd
  omega

theorem digitChar_toNat {n : Nat} (h : n < 10) : (digitChar n).toNat = 48 + n :=
  char_toNat_ofNat_valid _ (by omega)

theorem isDigitChar_digitChar {n : Nat} (h : n < 10) : isDigitChar (digitChar n) = true :=
  isDigitChar_iff.mpr (by rw [digitChar_toNat h]; omega)

theorem digitVal_digitChar {n : Nat} (h : n < 10) : digitVal (digitChar n) = n := by
  rw [digitVal, digitChar_toNat h]
  omega

/-! ### Decimal rendering lemmas -/

theorem natDigitsAux_digits :
    ∀ fuel n, n < fuel → ∀ c ∈ natDigitsAux fuel n, isDigitChar c = true := by
  intro fuel
  induction fuel with
  | zero => intro n h; omega
  | succ fuel ih =>
    intro n hn c hc
    rw [natDigitsAux] at hc
    by_cases h10 : n < 10
    · rw [if_pos h10] at hc
      rcases List.mem_singleton.mp hc with rfl
      exact isDigitChar_digitChar h10
    · rw [if_neg h10] at hc
      rcases List.mem_append.mp hc with hl | hr
      · have hdiv : n / 10 < n := Nat.div_lt_self (by omega) (by omega)
        exact ih (n / 10) (by omega) c hl
      · rcases List.mem_singleton.mp hr with rfl
        exact isDigitChar_digitChar (Nat.mod_lt _ (by omega))

theorem natDigitsAux_ne_nil : ∀ fuel n, n < fuel → natDigitsAux fuel n ≠ [] := by
  intro fuel
  induction fuel with
  | zero => intro n h; omega
  | succ fuel _ =>
    intro n _
    rw [natDigitsAux]
    by_cases h10 : n < 10
    · rw [if_pos h10]; exact List.cons_ne_nil _ _
    · rw [if_neg h10]
      intro h
      rcases List.append_eq_nil.mp h with ⟨_, h2⟩
      exact List.cons_ne_nil _ _ h2

theorem natOfDigits_append_single (l : List Char) (c : Char) :
    natOfDigits (l ++ [c]) = 10 * natOfDigits l + digitVal c := by
  simp [natOfDigits, List.foldl_append]

theorem natOfDigits_natDigitsAux :
    ∀ fuel n, n < fuel → natOfDigits (natDigitsAux fuel n) = n := by
  intro fuel
  induction fuel with
  | zero => intro n h; omega
  | succ fuel ih =>
    intro n hn
    rw [natDigitsAux]
    by_cases h10 : n < 10
    · rw [if_pos h10]
      simp [natOfDigits, digitVal_digitChar h10]
    · have hdiv : n / 10 < n := Nat.div_lt_self (by omega) (by omega)
      rw [if_neg h10, natOfDigits_append_single, ih (n / 10) (by omega),
        digitVal_digitChar (Nat.mod_lt _ (by omega))]
      omega

theorem natDigits_digits (n : Nat) : ∀ c ∈ natDigits n, isDigitChar c = true :=
  natDigitsAux_digits _ _ (Nat.lt_succ_self n)

theorem natDigits_ne_nil (n : Nat) : natDigits n ≠ [] :=
  natDigitsAux_ne_nil _ _ (Nat.lt_succ_self n)

theorem natOfDigits_natDigits (n : Nat) : natOfDigits (natDigits n) = n :=
  natOfDigits_natDigitsAux _ _ (Nat.lt_succ_self n)

/-! ### List preprocessing lemmas -/

theorem mem_stripSpaces_ne_space {c : Char} {l : List Char} (h : c ∈ stripSpaces l) :
    c ≠ ' ' := by
  have := (List.mem_filter.mp h).2
  exact of_decide_eq_true this

theorem stripSpaces_eq_self {l : List Char} (h : ∀ c ∈ l, c ≠ ' ') :
    stripSpaces l = l :=
  List.filter_eq_self.mpr fun c hc => decide_eq_true (h c hc)

theorem mem_upperL_stripSpaces_ne_space {c : Char} {l : List Char}
    (h : c ∈ upperL (stripSpaces l)) : c ≠ ' ' := by
  rcases List.mem_map.mp h with ⟨d, hd, rfl⟩
  exact upChar_ne_space (mem_stripSpaces_ne_space hd)

theorem upperL_upperL (d : List Char) : upperL (upperL d) = upperL d := by
  induction d with
  | nil => rfl
  | cons c d ih =>
    show upChar (upChar c) :: upperL (upperL d) = upChar c :: upperL d
    rw [upChar_idem, ih]

theorem upperL_eq_self_of_digits {l : List Char} (h : ∀ c ∈ l, isDigitChar c = true) :
    upperL l = l := by
  induction l with
  | nil => rfl
  | cons c d ih =>
    show upChar c :: upperL d = c :: d
    rw [upChar_eq_self_of_digit (h c (List.mem_cons_self c d)),
      ih fun x hx => h x (List.mem_cons_of_mem c hx)]

theorem isDigitsL_iff {l : List Char} :
    isDigitsL l = true ↔ l ≠ [] ∧ ∀ c ∈ l, isDigitChar c = true := by
  simp [isDigitsL, List.all_eq_true, List.isEmpty_iff]

theorem isDigitsL_natDigits (n : Nat) : isDigitsL (natDigits n) = true :=
  isDigitsL_iff.mpr ⟨natDigits_ne_nil n, natDigits_digits n⟩

/-! ### The canonical form `JL<digits>` is a fixed point of normalization -/

theorem stripSpaces_cons_of_ne (c : Char) (l : List Char) (h : c ≠ ' ') :
    stripSpaces (c :: l) = c :: stripSpaces l := by
  simp [stripSpaces, List.filter_cons, h]

theorem upperL_cons (c : Char) (l : List Char) : upperL (c :: l) = upChar c :: upperL l := rfl

theorem isDigitChar_J : isDigitChar 'J' = false := by decide

theorem isDigitsL_cons_J (l : List Char) : isDigitsL ('J' :: l) = false := by
  simp [isDigitsL, List.all_cons, isDigitChar_J]

theorem startsWithL_JL (l : List Char) : startsWithL ['J', 'L'] ('J' :: 'L' :: l) = true := by
  simp [startsWithL]

theorem canon_preprocess (l : List Char) (h : ∀ c ∈ l, isDigitChar c = true) :
    upperL (stripSpaces ('J' :: 'L' :: l)) = 'J' :: 'L' :: l := by
  rw [stripSpaces_cons_of_ne _ _ (by decide), stripSpaces_cons_of_ne _ _ (by decide),
    stripSpaces_eq_self fun c hc => digit_ne_space (h c hc),
    upperL_cons, upperL_cons, upperL_eq_self_of_digits h]
  rfl

theorem normalize_canon (m : Nat) :
    normalize_flight_num (some (String.mk ('J' :: 'L' :: natDigits m))) =
      String.mk ('J' :: 'L' :: natDigits m) := by
  have hne : String.mk ('J' :: 'L' :: natDigits m) ≠ "" := by
    intro h
    have hd := congrArg String.data h
    simp at hd
  simp only [normalize_flight_num]
  rw [if_neg hne]
  have hlist : (String.mk ('J' :: 'L' :: natDigits m)).toList = 'J' :: 'L' :: natDigits m := rfl
  rw [hlist, canon_preprocess _ (natDigits_digits m), normCore,
    if_neg (by rw [isDigitsL_cons_J]; exact Bool.false_ne_true),
    if_pos (startsWithL_JL _)]
  have hdrop : ('J' :: 'L' :: natDigits m).drop 2 = natDigits m := rfl
  rw [hdrop, if_pos (isDigitsL_natDigits m), natOfDigits_natDigits m]

theorem normCore_cases (cs : List Char) :
    (∃ m, normCore cs = String.mk ('J' :: 'L' :: natDigits m)) ∨
    (normCore cs = String.mk cs ∧ ¬isDigitsL cs = true ∧
      (¬startsWithL ['J', 'L'] cs = true ∨ ¬isDigitsL (cs.drop 2) = true)) := by
  rw [normCore]
  by_cases hd : isDigitsL cs = true
  · rw [if_pos hd]
    exact Or.inl ⟨natOfDigits cs, rfl⟩
  · rw [if_neg hd]
    by_cases hw : startsWithL ['J', 'L'] cs = true
    · rw [if_pos hw]
      by_cases hd2 : isDigitsL (cs.drop 2) = true
      · rw [if_pos hd2]
        exact Or.inl ⟨natOfDigits (cs.drop 2), rfl⟩
      · rw [if_neg hd2]
        exact Or.inr ⟨rfl, hd, Or.inr hd2⟩
    · rw [if_neg hw]
      exact Or.inr ⟨rfl, hd, Or.inl hw⟩

theorem normalize_fix_of_pass (cs : List Char)
    (hfix : upperL (stripSpaces cs) = cs)
    (hd : ¬isDigitsL cs = true)
    (hpass : ¬startsWithL ['J', 'L'] cs = true ∨ ¬isDigitsL (cs.drop 2) = true) :
    normalize_flight_num (some (String.mk cs)) = String.mk cs := by
  by_cases hmk : String.mk cs = ""
  · rw [hmk]
    rfl
  · simp only [normalize_flight_num]
    rw [if_neg hmk]
    have hlist : (String.mk cs).toList = cs := rfl
    rw [hlist, hfix, normCore, if_neg hd]
    rcases hpass with hw | hd2
    · rw [if_neg hw]
    · by_cases hw : startsWithL ['J', 'L'] cs = true
      · rw [if_pos hw, if_neg hd2]
      · rw [if_neg hw]

/-- Claim C9: the flight-number normalizer is idempotent — normalizing an
already-normalized value returns it unchanged, for every input. -/
theorem normalize_idempotent (code : Option String) :
    normalize_flight_num (some (normalize_flight_num code)) = normalize_flight_num code := by
  match code with
  | none => rfl
  | some s =>
    by_cases hs : s = ""
    · rw [hs]
      rfl
    · have hrw : normalize_flight_num (some s) = normCore (upperL (stripSpaces s.toList)) := by
        simp only [normalize_flight_num]
        rw [if_neg hs]
      have hnospace : ∀ c ∈ upperL (stripSpaces s.toList), c ≠ ' ' :=
        fun _ hc => mem_upperL_stripSpaces_ne_space hc
      have hfix : upperL (stripSpaces (upperL (stripSpaces s.toList))) =
          upperL (stripSpaces s.toList) := by
        rw [stripSpaces_eq_self hnospace, upperL_upperL]
      rw [hrw]
      rcases normCore_cases (upperL (stripSpaces s.toList)) with ⟨m, hm⟩ | ⟨hpassEq, hd, hpass⟩
      · rw [hm]
        exact normalize_canon m
      · rw [hpassEq]
        exact normalize_fix_of_pass _ hfix hd hpass

/-! ### Order lemmas for the date sort -/

theorem listLeB_refl : ∀ l : List Char, listLeB l l = true
  | [] => rfl
  | c :: cs => by
    rw [listLeB, if_neg (by omega), if_neg (by omega)]
    exact listLeB_refl cs

theorem listLeB_total : ∀ a b : List Char, listLeB a b = true ∨ listLeB b a = true
  | [], _ => Or.inl rfl
  | _ :: _, [] => Or.inr rfl
  | c :: cs, d :: ds => by
    by_cases h1 : c.toNat < d.toNat
    · left
      rw [listLeB, if_pos h1]
    · by_cases h2 : d.toNat < c.toNat
      · right
        rw [listLeB, if_pos h2]
      · rcases listLeB_total cs ds with h | h
        · left
          rw [listLeB, if_neg h1, if_neg h2]
          exact h
        · right
          rw [listLeB, if_neg h2, if_neg h1]
          exact h

theorem listLeB_trans :
    ∀ a b c : List Char, listLeB a b = true → listLeB b c = true → listLeB a c = true
  | [], _, _, _, _ => rfl
  | _ :: _, [], _, hxy, _ => by simp [listLeB] at hxy
  | _ :: _, _ :: _, [], _, hyz => by simp [listLeB] at hyz
  | x :: xs, y :: ys, z :: zs, hxy, hyz => by
    rw [listLeB] at hxy hyz ⊢
    by_cases h1 : x.toNat < y.toNat
    · by_cases h3 : z.toNat < y.toNat
      · rw [if_neg (by omega), if_pos h3] at hyz
        exact absurd hyz Bool.false_ne_true
      · rw [if_pos (by omega)]
    · by_cases h1' : y.toNat < x.toNat
      · rw [if_neg h1, if_pos h1'] at hxy
        exact absurd hxy Bool.false_ne_true
      · rw [if_neg h1, if_neg h1'] at hxy
        by_cases h3 : z.toNat < y.toNat
        · rw [if_neg (by omega), if_pos h3] at hyz
          exact absurd hyz Bool.false_ne_true
        · by_cases h2 : y.toNat < z.toNat
          · rw [if_pos (by omega)]
          · rw [if_neg h2, if_neg h3] at hyz
            rw [if_neg (by omega), if_neg (by omega)]
            exact listLeB_trans xs ys zs hxy hyz

theorem strLeB_refl (a : String) : strLeB a a = true := listLeB_refl _

theorem strLeB_total (a b : String) : strLeB a b = true ∨ strLeB b a = true :=
  listLeB_total _ _

theorem strLeB_trans {a b c : String} (h1 : strLeB a b = true) (h2 : strLeB b c = true) :
    strLeB a c = true :=
  listLeB_trans _ _ _ h1 h2

/-- The sort key order of `notify`'s in-place sort, as a relation on records. -/
def dateLeP (a b : Flight) : Prop := strLeB a.Date b.Date = true

theorem insertSorted_perm (f : Flight) : ∀ l, (insertSorted f l).Perm (f :: l)
  | [] => List.Perm.refl _
  | g :: gs => by
    rw [insertSorted]
    by_cases h : strLeB f.Date g.Date = true
    · rw [if_pos h]
    · rw [if_neg h]
      exact (List.Perm.cons g (insertSorted_perm f gs)).trans (List.Perm.swap f g gs)

theorem sortByDate_perm : ∀ l, (sortByDate l).Perm l
  | [] => List.Perm.refl _
  | f :: fs => (insertSorted_perm f (sortByDate fs)).trans ((sortByDate_perm fs).cons f)

theorem insertSorted_pairwise (f : Flight) (l : List Flight) (h : l.Pairwise dateLeP) :
    (insertSorted f l).Pairwise dateLeP := by
  induction l with
  | nil => simp [insertSorted]
  | cons g gs ih =>
    rw [insertSorted]
    rcases List.pairwise_cons.mp h with ⟨hg, hgs⟩
    by_cases hle : strLeB f.Date g.Date = true
    · rw [if_pos hle]
      refine List.pairwise_cons.mpr ⟨?_, h⟩
      intro b hb
      rcases List.mem_cons.mp hb with rfl | hb2
      · exact hle
      · exact strLeB_trans hle (hg b hb2)
    · rw [if_neg hle]
      refine List.pairwise_cons.mpr ⟨?_, ih hgs⟩
      intro b hb
      have hb' := (insertSorted_perm f gs).mem_iff.mp hb
      rcases List.mem_cons.mp hb' with rfl | hb2
      · rcases strLeB_total b.Date g.Date with h1 | h2
        · exact absurd h1 hle
        · exact h2
      · exact hg b hb2

theorem sortByDate_pairwise : ∀ l, (sortByDate l).Pairwise dateLeP
  | [] => List.Pairwise.nil
  | f :: fs => insertSorted_pairwise f _ (sortByDate_pairwise fs)

theorem filter_insertSorted (f : Flight) (l : List Flight) (d : String) :
    (insertSorted f l).filter (fun x => decide (x.Date = d)) =
      if f.Date = d then f :: l.filter (fun x => decide (x.Date = d))
      else l.filter (fun x => decide (x.Date = d)) := by
  induction l with
  | nil =>
    by_cases hf : f.Date = d <;> simp [insertSorted, List.filter_cons, hf]
  | cons g gs ih =>
    rw [insertSorted]
    by_cases hle : strLeB f.Date g.Date = true
    · rw [if_pos hle]
      by_cases hf : f.Date = d <;> simp [List.filter_cons, hf]
    · rw [if_neg hle]
      by_cases hf : f.Date = d
      · have hg : ¬g.Date = d := by
          intro hgd
          apply hle
          have hfg : f.Date = g.Date := by rw [hf, hgd]
          rw [hfg]
          exact strLeB_refl g.Date
        simp [List.filter_cons, hg, ih, hf]
      · simp [List.filter_cons, ih, hf]

theorem sortByDate_stable (l : List Flight) (d : String) :
    (sortByDate l).filter (fun x => decide (x.Date = d)) =
      l.filter (fun x => decide (x.Date = d)) := by
  induction l with
  | nil => rfl
  | cons f fs ih =>
    show (insertSorted f (sortByDate fs)).filter _ = _
    rw [filter_insertSorted]
    by_cases hf : f.Date = d <;> simp [List.filter_cons, hf, ih]

/-! ### Scan-pipeline lemmas -/

theorem foldl_append_eq (g : Request → List Flight) :
    ∀ (reqs : List Request) (acc : List Flight),
      reqs.foldl (fun acc r => acc ++ g r) acc = acc ++ reqs.flatMap g
  | [], acc => by simp
  | r :: rs, acc => by
    rw [List.foldl_cons, foldl_append_eq g rs (acc ++ g r), List.flatMap_cons,
      List.append_assoc]

theorem matchFlight_inv {source : String} {x f : Flight}
    (h : matchFlight source x = some f) :
    containsSeq ['J', 'L'] (f.OperatingAirlineCode.getD "").toList = true
    ∧ (f.FAvailable = true ∨ f.JAvailable = true)
    ∧ f.NormalizedFlightNum = some (normalize_flight_num f.FlightNumber)
    ∧ normalize_flight_num f.FlightNumber ∈ TARGET_FLIGHTS := by
  rw [matchFlight] at h
  by_cases h1 : containsSeq ['J', 'L'] (x.OperatingAirlineCode.getD "").toList = true
  · rw [if_pos h1] at h
    by_cases h2 : (x.JAvailable || x.FAvailable) = true
    · rw [if_pos h2] at h
      by_cases h3 : normalize_flight_num x.FlightNumber ∈ TARGET_FLIGHTS
      · rw [if_pos h3] at h
        injection h with hf
        subst hf
        refine ⟨h1, ?_, rfl, h3⟩
        rcases Bool.or_eq_true_iff.mp h2 with hj | hfa
        · exact Or.inr hj
        · exact Or.inl hfa
      · rw [if_neg h3] at h
        exact absurd h (by simp)
    · rw [if_neg h2] at h
      exact absurd h (by simp)
  · rw [if_neg h1] at h
    exact absurd h (by simp)

theorem mem_check_flights {api_key : Option String} {sd ed : String}
    {fetch : Request → Option (List Flight)} {f : Flight}
    (hf : f ∈ (check_flights api_key sd ed fetch).2) :
    ∃ r x, matchFlight (Request.source r) x = some f := by
  rw [check_flights] at hf
  by_cases hk : pyTruthyStr api_key = false
  · rw [if_pos hk] at hf
    simp at hf
  · rw [if_neg hk] at hf
    have hfold := foldl_append_eq (handleReq fetch) (allRequests sd ed) []
    simp only [hfold, List.nil_append] at hf
    rcases List.mem_flatMap.mp hf with ⟨r, _, hfr⟩
    rcases hfetch : fetch r with _ | data
    · rw [handleReq, hfetch] at hfr
      simp at hfr
    · rw [handleReq, hfetch] at hfr
      rcases List.mem_filterMap.mp hfr with ⟨x, _, hmx⟩
      exact ⟨r, x, hmx⟩

theorem append_ne_empty_right (a b : String) (hb : b.length ≠ 0) : a ++ b ≠ "" := by
  intro h
  have hlen := congrArg String.length h
  rw [String.length_append] at hlen
  simp at hlen
  omega

/-! ### The claims -/

/-- Claim C1: every record appended by `check_flights` has an operating
carrier containing `"JL"`, at least one of first/business availability set,
carries its normalized flight key, and that key is in `TARGET_FLIGHTS`. -/
theorem check_flights_invariant (api_key : Option String) (sd ed : String)
    (fetch : Request → Option (List Flight)) (f : Flight)
    (hf : f ∈ (check_flights api_key sd ed fetch).2) :
    containsSeq ['J', 'L'] (f.OperatingAirlineCode.getD "").toList = true
    ∧ (f.FAvailable = true ∨ f.JAvailable = true)
    ∧ f.NormalizedFlightNum = some (normalize_flight_num f.FlightNumber)
    ∧ normalize_flight_num f.FlightNumber ∈ TARGET_FLIGHTS := by
  rcases mem_check_flights hf with ⟨r, x, hmx⟩
  exact matchFlight_inv hmx

/-- Claim C1 witness: the invariant holds of a concrete record produced by a
concrete scan. -/
theorem check_flights_invariant_witness :
    containsSeq ['J', 'L'] (goodMatched.OperatingAirlineCode.getD "").toList = true
    ∧ (goodMatched.FAvailable = true ∨ goodMatched.JAvailable = true)
    ∧ goodMatched.NormalizedFlightNum = some (normalize_flight_num goodMatched.FlightNumber)
    ∧ normalize_flight_num goodMatched.FlightNumber ∈ TARGET_FLIGHTS :=
  check_flights_invariant (some "key") "2025-10-12" "2026-09-07" fetchGood goodMatched
    (by decide)

/-- Claim C2: `"JL006"`, `"JL6"`, `"6"` and `" jl 006 "` all normalize to the
same canonical key, and `None` normalizes to the empty string. -/
theorem normalize_canonical_examples :
    normalize_flight_num (some "JL006") = "JL6"
    ∧ normalize_flight_num (some "JL6") = "JL6"
    ∧ normalize_flight_num (some "6") = "JL6"
    ∧ normalize_flight_num (some " jl 006 ") = "JL6"
    ∧ normalize_flight_num none = "" := by decide

/-- Claim C3 counterexample: the normalizer does NOT strip every kind of
whitespace.  `"JL\t6"` differs from the target key `"JL6"` only by a tab,
yet it normalizes to itself, not to `"JL6"`. -/
theorem whitespace_tab_counterexample :
    normalize_flight_num (some "JL\t6") = "JL\t6"
    ∧ ("JL\t6" : String) ≠ "JL6"
    ∧ "JL6" ∈ TARGET_FLIGHTS := ⟨by decide, by decide, by decide⟩

/-- Claim C3 amended: the normalizer strips space characters (U+0020) only,
then upper-cases, before the digit / JL-prefix rules; any input whose
space-stripped upper-casing equals a target key normalizes to that key. -/
theorem normalize_strips_spaces_only (s k : String) (hk : k ∈ TARGET_FLIGHTS)
    (hs : upperL (stripSpaces s.toList) = k.toList) :
    normalize_flight_num (some s) = k := by
  have hk' : k = "JL3" ∨ k = "JL4" ∨ k = "JL5" ∨ k = "JL6" := by
    simpa [TARGET_FLIGHTS] using hk
  have hne : s ≠ "" := by
    intro h
    subst h
    rcases hk' with rfl | rfl | rfl | rfl <;> exact absurd hs (by decide)
  simp only [normalize_flight_num]
  rw [if_neg hne, hs]
  rcases hk' with rfl | rfl | rfl | rfl <;> decide

/-- Claim C3 amended, witness: an input differing from `"JL6"` only by
spaces and case normalizes to `"JL6"`. -/
theorem normalize_strips_spaces_only_witness :
    "JL6" ∈ TARGET_FLIGHTS ∧ normalize_flight_num (some " jl 6 ") = "JL6" :=
  ⟨by decide, normalize_strips_spaces_only " jl 6 " "JL6" (by decide) (by decide)⟩

/-- Claim C4: with the API key absent (`None` or empty), `check_flights`
returns the empty list and issues no request at all. -/
theorem check_flights_missing_key (sd ed : String)
    (fetch : Request → Option (List Flight)) :
    check_flights none sd ed fetch = ([], [])
    ∧ check_flights (some "") sd ed fetch = ([], []) :=
  ⟨rfl, rfl⟩

/-- Claim C5: the notification payload is built from the matches sorted by
travel date ascending with a stable sort (a permutation, pairwise ordered,
preserving arrival order among equal dates), and the three-date example
comes out in ascending order. -/
theorem notify_payload_sorted (wh : Option String) (fl : List Flight)
    (h1 : fl ≠ []) (h2 : pyTruthyStr wh = true) :
    (notify wh fl).2 = some (mkPayload fl)
    ∧ (sortByDate fl).Perm fl
    ∧ (sortByDate fl).Pairwise dateLeP
    ∧ (∀ d : String, (sortByDate fl).filter (fun x => decide (x.Date = d)) =
        fl.filter (fun x => decide (x.Date = d)))
    ∧ (sortByDate [exFlight "2025-03-01", exFlight "2025-01-15",
        exFlight "2025-02-10"]).map Flight.Date =
          ["2025-01-15", "2025-02-10", "2025-03-01"] := by
  refine ⟨?_, sortByDate_perm fl, sortByDate_pairwise fl, sortByDate_stable fl, by decide⟩
  rw [notify, if_neg (fun h => h1 (List.isEmpty_iff.mp h)), if_neg (by simp [h2])]
  rfl

/-- Claim C5 witness: the sorted order at a concrete three-element input. -/
theorem notify_payload_sorted_witness :
    (sortByDate [exFlight "2025-03-01", exFlight "2025-01-15",
      exFlight "2025-02-10"]).Pairwise dateLeP :=
  (notify_payload_sorted (some "w") [exFlight "2025-03-01", exFlight "2025-01-15",
    exFlight "2025-02-10"] (by decide) (by decide)).2.2.1

/-- Claim C6: with more than ten matches the notification carries exactly
ten embeds, while the snapshot has one record per match, uncapped. -/
theorem notify_caps_at_ten (wh : Option String) (t : PyTime) (fl : List Flight)
    (h1 : pyTruthyStr wh = true) (h2 : 10 < fl.length) :
    ((notify wh fl).2.map fun p => p.embeds.length) = some 10
    ∧ (save_to_json t fl).flights.length = fl.length := by
  constructor
  · have hne : fl ≠ [] := by
      intro h
      rw [h] at h2
      simp at h2
    rw [notify, if_neg (fun h => hne (List.isEmpty_iff.mp h)), if_neg (by simp [h1])]
    have hlen : (sortByDate fl).length = fl.length := (sortByDate_perm fl).length_eq
    simp [List.length_take, List.length_map, hlen]
    omega
  · simp [save_to_json, List.length_map]

/-- Claim C6 witness: twelve matches give ten embeds and twelve snapshot
records. -/
theorem notify_caps_at_ten_witness :
    (((notify (some "w") twelveFlights).2.map fun p => p.embeds.length) = some 10
      ∧ (save_to_json exTime twelveFlights).flights.length = twelveFlights.length)
    ∧ twelveFlights.length = 12 :=
  ⟨notify_caps_at_ten (some "w") exTime twelveFlights (by decide) (by decide), by decide⟩

/-- Claim C7 counterexample: a business-class cost that is present but `0`
is skipped — the displayed cost is the first-class cost, not the
(formatted) business cost — so selection is not by presence alone. -/
theorem cost_zero_counterexample :
    zeroCostFlight.JMileage = some 0
    ∧ cost_str zeroCostFlight = "50,000 pts"
    ∧ fmtThousands 0 ++ " pts" ≠ "50,000 pts" :=
  ⟨rfl, by decide, by decide⟩

/-- Claim C7 amended: the displayed cost is the business-class mileage when
present and nonzero, else the first-class mileage when present and nonzero,
else the sentinel `"?"`; a numeric cost is rendered with thousands
separators. -/
theorem cost_selection_amended :
    (∀ fl : Flight, cost_str fl =
      match specCostChoice fl.JMileage fl.FMileage with
      | none => "?"
      | some n => fmtThousands n ++ " pts")
    ∧ fmtThousands 85000 = "85,000" := by
  constructor
  · intro fl
    show (match pyOrNat fl.JMileage fl.FMileage with
      | none => "?"
      | some n => if n = 0 then "?" else fmtThousands n ++ " pts") = _
    rcases fl.JMileage with _ | n <;> rcases fl.FMileage with _ | m
    · rfl
    · by_cases hm : m = 0 <;> simp [pyOrNat, specCostChoice, hm]
    · by_cases hn : n = 0 <;> simp [pyOrNat, specCostChoice, hn]
    · by_cases hn : n = 0 <;> by_cases hm : m = 0 <;>
        simp [pyOrNat, specCostChoice, hn, hm]
  · decide

/-- Claim C8: on an empty match list no notification is produced and the
list is untouched, while the snapshot still has an empty flights array and
a non-empty timestamp. -/
theorem empty_matches_behavior (wh : Option String) (t : PyTime) :
    (notify wh []).2 = none
    ∧ (notify wh []).1 = []
    ∧ (save_to_json t []).flights = []
    ∧ (save_to_json t []).last_updated ≠ "" := by
  refine ⟨rfl, rfl, rfl, ?_⟩
  show timestampStr t ≠ ""
  rw [timestampStr]
  exact append_ne_empty_right _ _ (by decide)

/-- Claim C10: `notify` sorts the caller's list in place exactly when the
list is non-empty and a webhook URL is configured; otherwise the list is
left as it was. -/
theorem notify_sorts_in_place (wh : Option String) (fl : List Flight) :
    (fl ≠ [] → pyTruthyStr wh = true →
      (notify wh fl).1 = sortByDate fl ∧ (notify wh fl).1.Perm fl
        ∧ (notify wh fl).1.Pairwise dateLeP)
    ∧ (fl = [] → (notify wh fl).1 = fl)
    ∧ (pyTruthyStr wh = false → (notify wh fl).1 = fl) := by
  refine ⟨?_, ?_, ?_⟩
  · intro h1 h2
    have hrw : (notify wh fl).1 = sortByDate fl := by
      rw [notify, if_neg (fun h => h1 (List.isEmpty_iff.mp h)), if_neg (by simp [h2])]
    exact ⟨hrw, hrw ▸ sortByDate_perm fl, hrw ▸ sortByDate_pairwise fl⟩
  · intro h
    subst h
    rfl
  · intro h
    rw [notify]
    by_cases he : fl.isEmpty = true
    · rw [if_pos he]
    · rw [if_neg he, if_pos h]

/-- Claim C10 witness: a concrete non-empty list with a webhook gets
permuted; a concrete list without a webhook is left unchanged. -/
theorem notify_sorts_in_place_witness :
    (notify (some "w") [exFlight "2025-03-01", exFlight "2025-01-15"]).1.Perm
      [exFlight "2025-03-01", exFlight "2025-01-15"]
    ∧ (notify none [exFlight "2025-03-01"]).1 = [exFlight "2025-03-01"] :=
  ⟨((notify_sorts_in_place (some "w") [exFlight "2025-03-01", exFlight "2025-01-15"]).1
      (by decide) (by decide)).2.1,
   (notify_sorts_in_place none [exFlight "2025-03-01"]).2.2 (by decide)⟩

end Monitor
